import Mathlib

/-!
Shallow embedding of `src/python_server/app.py` (the `/api/text-to-sql`
request handler and its helper logic) and proofs about the claims of the
specification.  Python strings are modelled as `String` / `List Char`;
Python `None` as `Option.none`; machine-level details (HTTP transport,
the SQLAlchemy engine) are modelled as oracles passed to the handler.
-/

namespace BB

/-- Whitespace characters stripped by Python `str.strip()` (the ASCII ones;
`\x0b` and `\x0c` are included for faithfulness). -/
def isWS (c : Char) : Bool :=
  c = ' ' || c = '\t' || c = '\n' || c = '\r' || c = Char.ofNat 11 || c = Char.ofNat 12

/-- Python `str.strip()` on a character list: drop whitespace from both ends. -/
def pyStrip (l : List Char) : List Char :=
  ((l.dropWhile isWS).reverse.dropWhile isWS).reverse

/-- Python `str.strip()` on a `String`. -/
def pyStripStr (s : String) : String :=
  (pyStrip s.toList).asString

/-- Python `str.startswith`: `isPre p l` is true iff `p` is a prefix of `l`. -/
def isPre : List Char → List Char → Bool
  | [], _ => true
  | _ :: _, [] => false
  | a :: as, b :: bs => a = b && isPre as bs

/-- Python `str.endswith`: true iff `p` is a suffix of `l`. -/
def isSuf (p l : List Char) : Bool :=
  isPre p.reverse l.reverse

/-- The backtick character, written via its code point. -/
def btk : Char := Char.ofNat 96

/-- The opening-brace character, written via its code point. -/
def lbrace : Char := Char.ofNat 123

/-- The closing-brace character, written via its code point. -/
def rbrace : Char := Char.ofNat 125

/-- The characters of the fenced-code opener with language tag, ` ```json `. -/
def fenceJsonPat : List Char := [btk, btk, btk, 'j', 's', 'o', 'n']

/-- The characters of the bare fenced-code marker ` ``` `. -/
def fencePat : List Char := [btk, btk, btk]

/-- Line 197-198 of `app.py`: `if json_str.startswith('```json'): json_str = json_str[7:]`. -/
def stripLeadJson (l : List Char) : List Char :=
  if isPre fenceJsonPat l then l.drop 7 else l

/-- Line 199-200 of `app.py`: `if json_str.startswith('```'): json_str = json_str[3:]`. -/
def stripLeadFence (l : List Char) : List Char :=
  if isPre fencePat l then l.drop 3 else l

/-- Line 201-202 of `app.py`: `if json_str.endswith('```'): json_str = json_str[:-3]`
(Python `json_str[:-3]` is `take (length - 3)`). -/
def stripTrailFence (l : List Char) : List Char :=
  if isSuf fencePat l then l.take (l.length - 3) else l

/-- Lines 196-203 of `app.py`: strip surrounding whitespace, remove a leading
` ```json ` marker, then a leading ` ``` ` marker, then a trailing ` ``` `
marker, and strip again. -/
def stripFences (l : List Char) : List Char :=
  pyStrip (stripTrailFence (stripLeadFence (stripLeadJson (pyStrip l))))

/-- One pass of Python `str.replace`, with fuel bounding the number of steps
(`fuel ≥ l.length` gives the real semantics: scan left to right, replace
non-overlapping occurrences, never rescan replacement text). -/
def replaceGo (p r : List Char) : Nat → List Char → List Char
  | 0, l => l
  | _ + 1, [] => []
  | fuel + 1, c :: cs =>
    if !p.isEmpty && isPre p (c :: cs) then
      r ++ replaceGo p r fuel ((c :: cs).drop p.length)
    else
      c :: replaceGo p r fuel cs

/-- Python `l.replace(p, r)` for a nonempty pattern `p`. -/
def replaceAll (p r l : List Char) : List Char :=
  replaceGo p r l.length l

/-- True iff `p` occurs as a contiguous substring of `l`. -/
def occursIn (p : List Char) : List Char → Bool
  | [] => isPre p []
  | c :: cs => isPre p (c :: cs) || occursIn p cs

/-- Lines 212-214 of `app.py`: the three sequential alias substitutions
("Temporary SQL alias fix for schema mismatch"). -/
def rewriteStr (s : String) : String :=
  (replaceAll ".model =".toList ".model_name =".toList
    (replaceAll " bf.model,".toList " bf.model_name,".toList
      (replaceAll " bf.model ".toList " bf.model_name ".toList s.toList))).asString

/-- The single-quote character, written via its code point. -/
def sq : Char := Char.ofNat 39

/-- The double-quote character. -/
def dq : Char := Char.ofNat 34

/-- The single-quote character as a one-character string. -/
def sqs : String := String.mk [sq]

/-- Python values as they occur in this application: strings, integers,
`None`, and lists (the shapes a `solutions` column value can take). -/
inductive PyVal where
  | vstr (s : String)
  | vint (n : Int)
  | vnone
  | vlist (l : List PyVal)

/-- Value of a digit-character list read in base 10. -/
def digitsToNat (l : List Char) : Nat :=
  l.foldl (fun n c => 10 * n + (c.toNat - 48)) 0

/-- Parse a quoted literal body after the opening quote `q` was consumed:
scan to the closing quote (escape sequences are outside the fragment used). -/
def parseQuoted (q : Char) (l : List Char) : Option (String × List Char) :=
  match l.dropWhile (fun c => c ≠ q) with
  | _ :: rest => some ((l.takeWhile (fun c => c ≠ q)).asString, rest)
  | [] => none

/-- Parse one atom (quoted string or integer literal) of a Python literal. -/
def parseAtom (l : List Char) : Option (PyVal × List Char) :=
  match l with
  | [] => none
  | c :: rest =>
    if c = sq then (parseQuoted sq rest).map (fun p => (PyVal.vstr p.1, p.2))
    else if c = dq then (parseQuoted dq rest).map (fun p => (PyVal.vstr p.1, p.2))
    else if c = '-' then
      let ds := rest.takeWhile Char.isDigit
      if ds.isEmpty then none
      else some (PyVal.vint (-(digitsToNat ds : Int)), rest.drop ds.length)
    else if c.isDigit then
      let ds := (c :: rest).takeWhile Char.isDigit
      some (PyVal.vint (digitsToNat ds), (c :: rest).drop ds.length)
    else none

/-- Parse the comma-separated elements of a list literal up to the closing
bracket; `fuel` bounds the recursion depth. -/
def parseElems : Nat → List Char → Option (List PyVal × List Char)
  | 0, _ => none
  | fuel + 1, l =>
    match l.dropWhile isWS with
    | ']' :: r => some ([], r)
    | l1 =>
      match parseAtom l1 with
      | none => none
      | some (v, r) =>
        match r.dropWhile isWS with
        | ',' :: r2 =>
          match parseElems fuel r2 with
          | none => none
          | some (vs, r3) => some (v :: vs, r3)
        | ']' :: r2 => some ([v], r2)
        | _ => none

/-- Modelled from the Python standard library `ast.literal_eval`, restricted to
the literal fragment this application receives from the `solutions` column:
quoted string literals, integer literals, and one-level list literals of such
atoms.  `none` models the `ValueError`/`SyntaxError` cases. -/
def litEval (l : List Char) : Option PyVal :=
  match l.dropWhile isWS with
  | '[' :: r =>
    match parseElems (r.length + 1) r with
    | some (vs, rest) =>
      if (rest.dropWhile isWS).isEmpty then some (PyVal.vlist vs) else none
    | none => none
  | l1 =>
    match parseAtom l1 with
    | some (v, rest) =>
      if (rest.dropWhile isWS).isEmpty then some v else none
    | none => none

/-- Lines 238-248 of `app.py`: normalize a `solutions` column value: a native
list passes through; a string is fed to `ast.literal_eval`, keeping the result
only if it is a list and otherwise wrapping the original string; parse failure
also wraps the original string; any other value leaves the initial `[]`. -/
def normalizeSolutions (v : PyVal) : List PyVal :=
  match v with
  | PyVal.vlist l => l
  | PyVal.vstr s =>
    match litEval s.toList with
    | some (PyVal.vlist l) => l
    | some _ => [PyVal.vstr s]
    | none => [PyVal.vstr s]
  | _ => []

mutual

/-- Python `repr` on the fragment of values used here (string elements are
shown single-quoted, as `str(list)` does). -/
def pyRepr : PyVal → String
  | PyVal.vstr s => sqs ++ s ++ sqs
  | PyVal.vint n => toString n
  | PyVal.vnone => "None"
  | PyVal.vlist l => "[" ++ pyReprList l ++ "]"

/-- Comma-separated `repr` of list elements. -/
def pyReprList : List PyVal → String
  | [] => ""
  | [v] => pyRepr v
  | v :: vs => pyRepr v ++ ", " ++ pyReprList vs

end

/-- Python `str()` as used by the f-string `f"- \x7bs\x7d"`: strings unchanged,
other values via `repr`-style rendering. -/
def pyStr : PyVal → String
  | PyVal.vstr s => s
  | v => pyRepr v

/-- True iff every element of the list is a Python string. -/
def allStr (l : List PyVal) : Bool :=
  l.all fun v => match v with | PyVal.vstr _ => true | _ => false

/-- The decoded JSON object returned by the reasoning capability, as read by
lines 206-216 of `app.py`.  Each field is `none` when the key is absent from
the object (for `response`, also when the value is JSON `null`, since Python
`dict.get` yields `None` in both cases). -/
structure LlmJson where
  action : Option String
  response : Option String
  context_update : Option (List (String × String))
  sql_query : Option String
  manual_link : Option String
  regulation_ref : Option String
deriving DecidableEq

/-- The first result row as read by lines 233-235: `description` via
`row_dict.get("description", "")` and the raw `solutions` value via
`row_dict.get("solutions")` (absent key modelled as `vnone`). -/
structure Row where
  description : String
  solutions : PyVal

/-- A chat turn role. -/
inductive Role where
  | user
  | assistant
deriving DecidableEq

/-- One element of the persisted `history` JSON list: a role/content pair.
The content is `Option String` because the assistant content can be Python
`None` (the handler stores `final_response` verbatim). -/
structure Turn where
  role : Role
  content : Option String
deriving DecidableEq

/-- The `chat_sessions` table: `session_id` to stored history (a `none`
result models no row for that id). -/
def Store := String → Option (List Turn)

/-- Writing one session row (the effect of the INSERT or UPDATE statement). -/
def Store.upd (st : Store) (k : String) (v : List Turn) : Store :=
  fun s => if s = k then some v else st s

/-- The JSON body returned on success (lines 289-296 of `app.py`). -/
structure ApiResponse where
  response : Option String
  sql_query : Option String
  session_id : String
  manual_link : String
  regulation_ref : String
  action : Option String
deriving DecidableEq

/-- Outcome of one request: `ok` carries the response body and the committed
store; `decodeErr` is the early `return` of line 218, which leaves the
transaction to commit (it carries the raw reasoning output and the committed
store); `exn` is any raised exception, caught at line 298 after the
transaction rolled back; `badRequest` is the input validation of
lines 159-163. -/
inductive HResult where
  | ok (resp : ApiResponse) (store : Store)
  | decodeErr (raw : String) (store : Store)
  | exn (store : Store)
  | badRequest

/-- Python `a or b` for an optional string `a` and string default `b`. -/
def pyOr (a : Option String) (b : String) : String :=
  match a with
  | some s => if s = "" then b else s
  | none => b

/-- Python `a + b` where `a` may be `None`: concatenating onto `None` raises
`TypeError`, modelled as `Except.error`. -/
def pyConcat (a : Option String) (b : String) : Except Unit (Option String) :=
  match a with
  | some s => Except.ok (some (s ++ b))
  | none => Except.error ()

/-- Line 264: the generic no-match fallback message. -/
def noMatchMsg : String :=
  "No specific fault code found. Based on the information provided, I" ++ sqs
    ++ "ll use my engineering experience to help diagnose the issue."

/-- Line 266: the generic unable-to-generate-a-query message. -/
def noQueryMsg : String := "Unable to generate a database query."

/-- Line 280: the generic clarification request for unknown actions. -/
def clarifyMsg : String :=
  "I" ++ sqs ++ "m not sure how to proceed. Could you please clarify?"

/-- Line 258: the manual annotation marker, with the exact (mojibake)
characters of the source literal. -/
def manualMark : String := "\n\nüìñ Manual: "

/-- Line 261: the regulation annotation marker, with the exact (mojibake)
characters of the source literal. -/
def regMark : String := "\n\n‚ö†Ô∏è Gas Safety Regulation: "

/-- Line 254: the steps section separator and header. -/
def stepsHeader : String := "\n\nRecommended steps:\n"

/-- Lines 233-261 of `app.py`: format the first result row into the reply:
trimmed description, then the bulleted solutions (if any), then the manual
annotation (if `manual_link` non-empty), then the regulation annotation (if
`regulation_ref` non-empty). -/
def formatRow (row : Row) (manual_link regulation_ref : String) : String :=
  let solutions_list := normalizeSolutions row.solutions
  let fr := pyStripStr row.description
  let fr := if solutions_list.isEmpty then fr
    else fr ++ stepsHeader
      ++ String.intercalate "\n" (solutions_list.map fun s => "- " ++ pyStr s)
  let fr := if manual_link = "" then fr else fr ++ manualMark ++ manual_link
  if regulation_ref = "" then fr else fr ++ regMark ++ regulation_ref

/-- Lines 224-280 of `app.py`: the action dispatch.  `dbExec` is the
`connection.execute(text(sql_query)).fetchall()` oracle; an `Except.error`
is a raised exception.  Returns `(final_response, sql_query_for_response)`;
`sql_query_for_response` starts as the sentinel `"N/A"` and is overwritten
with the (already rewritten) `sql_query` value inside the `query` branch. -/
def act (dbExec : String → Except Unit (List Row))
    (action response_text sql_query : Option String)
    (manual_link regulation_ref : String) :
    Except Unit (Option String × Option String) :=
  if action = some "query" then
    match sql_query with
    | some q =>
      if q = "" then Except.ok (some noQueryMsg, some q)
      else
        match dbExec q with
        | Except.error e => Except.error e
        | Except.ok [] => Except.ok (some (pyOr response_text noMatchMsg), some q)
        | Except.ok (row :: _) =>
          Except.ok (some (formatRow row manual_link regulation_ref), some q)
    | none => Except.ok (some noQueryMsg, none)
  else if action = some "fallback_reasoning" then
    match
      (if manual_link = "" then Except.ok response_text
       else pyConcat response_text (manualMark ++ manual_link)) with
    | Except.error e => Except.error e
    | Except.ok fr =>
      match
        (if regulation_ref = "" then Except.ok fr
         else pyConcat fr (regMark ++ regulation_ref)) with
      | Except.error e => Except.error e
      | Except.ok fr2 => Except.ok (fr2, some "N/A")
  else if action = some "ask" then
    Except.ok (response_text, some "N/A")
  else
    Except.ok (some (pyOr response_text clarifyMsg), some "N/A")

/-- Lines 194-216 of `app.py`, the parse stage: strip fenced-code markers,
then decode.  `decode` models `json.loads` restricted to the expected object
shape (`none` is a `json.JSONDecodeError`); equal decoded objects have equal
extracted fields, so fence-invariance of this function is fence-invariance of
every extracted field. -/
def parseDecision (decode : List Char → Option LlmJson) (raw : List Char) : Option LlmJson :=
  decode (stripFences raw)

/-- Lines 209-214 of `app.py`: the extracted `sql_query` value, with the
alias rewrite applied only to truthy (non-empty, non-null) values. -/
def sqlOfJson (j : LlmJson) : Option String :=
  match j.sql_query with
  | some s => if s = "" then some s else some (rewriteStr s)
  | none => none

/-- The `/api/text-to-sql` handler (lines 153-299 of `app.py`).  `decode`
models `json.loads`; `llm` is the `query_chain.invoke` outcome; `dbExec`
executes a query.  One transaction wraps the body: a raised exception yields
`exn` with the untouched store (rollback); the decode-error early return of
line 218 commits the store as of that point; success commits insert plus
update. -/
def text_to_sql (decode : List Char → Option LlmJson)
    (dbExec : String → Except Unit (List Row))
    (llm : Except Unit String) (store : Store)
    (session_id question : String) : HResult :=
  if session_id = "" then HResult.badRequest
  else if question = "" then HResult.badRequest
  else
    let fetched := store session_id
    let store1 : Store := match fetched with
      | some _ => store
      | none => store.upd session_id []
    let history0 := fetched.getD []
    let history1 := history0 ++ [⟨Role.user, some question⟩]
    match llm with
    | Except.error _ => HResult.exn store
    | Except.ok llmOut =>
      match parseDecision decode llmOut.toList with
      | none => HResult.decodeErr llmOut store1
      | some j =>
        let sql_query : Option String := sqlOfJson j
        let manual_link := j.manual_link.getD ""
        let regulation_ref := j.regulation_ref.getD ""
        match act dbExec j.action j.response sql_query manual_link regulation_ref with
        | Except.error _ => HResult.exn store
        | Except.ok (finalResp, sqlForResp) =>
          let history2 := history1 ++ [⟨Role.assistant, finalResp⟩]
          HResult.ok
            ⟨finalResp, sqlForResp, session_id, manual_link, regulation_ref, j.action⟩
            (store1.upd session_id history2)

/-- The response body of a successful request, if any. -/
def HResult.respOut : HResult → Option ApiResponse
  | HResult.ok r _ => some r
  | _ => none

/-- The raw reasoning output preserved in a decode failure, if any. -/
def HResult.rawErr : HResult → Option String
  | HResult.decodeErr r _ => some r
  | _ => none

/-- The store after the request (for `badRequest` nothing ran, so the
caller's store is returned). -/
def HResult.storeOut (r : HResult) (fallback : Store) : Store :=
  match r with
  | HResult.ok _ st => st
  | HResult.decodeErr _ st => st
  | HResult.exn st => st
  | HResult.badRequest => fallback

/-- True iff the request completed successfully. -/
def HResult.isOk : HResult → Bool
  | HResult.ok _ _ => true
  | _ => false

/-- One request together with its per-request oracles. -/
structure Req where
  dbExec : String → Except Unit (List Row)
  llm : Except Unit String
  session_id : String
  question : String

/-- The store after serving one request. -/
def stepReq (decode : List Char → Option LlmJson) (st : Store) (r : Req) : Store :=
  (text_to_sql decode r.dbExec r.llm st r.session_id r.question).storeOut st

/-- The store after serving a sequence of requests in order. -/
def runReqs (decode : List Char → Option LlmJson) (reqs : List Req) (st : Store) : Store :=
  reqs.foldl (stepReq decode) st

/-- Whether a request completes successfully; the outcome kind does not
depend on the store, so it is evaluated at the empty store. -/
def isSuccess (decode : List Char → Option LlmJson) (r : Req) : Bool :=
  (text_to_sql decode r.dbExec r.llm (fun _ => none) r.session_id r.question).isOk

/-- The store after the session-fetch stage: unchanged when the session row
exists, extended with an empty-history row otherwise (the INSERT of
lines 179-182). -/
def ensure (st : Store) (sid : String) : Store :=
  match st sid with
  | some _ => st
  | none => st.upd sid []

/-- The store-independent part of a request outcome. -/
inductive Outcome where
  | bad
  | err
  | decErr (raw : String)
  | good (finalResp sqlForResp : Option String)
      (manual_link regulation_ref : String) (action : Option String)

/-- Whether an outcome is the successful one. -/
def Outcome.isGood : Outcome → Bool
  | Outcome.good _ _ _ _ _ => true
  | _ => false

/-- The outcome of a request, computed without the store: validation, the
reasoning call, the parse stage, and the action dispatch touch only the
request inputs and oracles. -/
def outcomeOf (decode : List Char → Option LlmJson)
    (dbExec : String → Except Unit (List Row))
    (llm : Except Unit String) (session_id question : String) : Outcome :=
  if session_id = "" then Outcome.bad
  else if question = "" then Outcome.bad
  else match llm with
    | Except.error _ => Outcome.err
    | Except.ok llmOut =>
      match parseDecision decode llmOut.toList with
      | none => Outcome.decErr llmOut
      | some j =>
        match act dbExec j.action j.response (sqlOfJson j)
            (j.manual_link.getD "") (j.regulation_ref.getD "") with
        | Except.error _ => Outcome.err
        | Except.ok (finalResp, sqlForResp) =>
          Outcome.good finalResp sqlForResp
            (j.manual_link.getD "") (j.regulation_ref.getD "") j.action

/-- Values of the `solutions` column for which every produced element is a
string: native lists of strings, strings whose embedded list literal (if it
parses to a list at all) holds only strings, and non-list non-string values. -/
def goodVal (v : PyVal) : Bool :=
  match v with
  | PyVal.vlist l => allStr l
  | PyVal.vstr s =>
    match litEval s.toList with
    | some (PyVal.vlist l) => allStr l
    | _ => true
  | _ => true

/-- The history persisted for a session (absent row read as `[]`, as the
handler does). -/
def histAt (st : Store) (sid : String) : List Turn :=
  (st sid).getD []

/-- Strict user/assistant alternation of even length. -/
def altUA : List Turn → Bool
  | [] => true
  | u :: a :: t => u.role == Role.user && a.role == Role.assistant && altUA t
  | _ :: [] => false

/-! Shared lemmas. -/

/-- A `replace` pass leaves a list untouched when the pattern never occurs
in it, for any fuel value. -/
theorem replaceGo_of_not_occurs (p r : List Char) (fuel : Nat) :
    ∀ l : List Char, occursIn p l = false → replaceGo p r fuel l = l := by
  induction fuel with
  | zero => intro l _; rfl
  | succ n ih =>
    intro l h
    cases l with
    | nil => rfl
    | cons c cs =>
      rw [occursIn] at h
      rcases Bool.or_eq_false_iff.mp h with ⟨h1, h2⟩
      rw [replaceGo, if_neg (by simp [h1]), ih cs h2]

/-- Python `replace` leaves a list untouched when the pattern never occurs. -/
theorem replaceAll_of_not_occurs (p r l : List Char) (h : occursIn p l = false) :
    replaceAll p r l = l :=
  replaceGo_of_not_occurs p r l.length l h

/-- `pyOr` never yields the empty string when its default is non-empty. -/
theorem pyOr_ne_empty (a : Option String) (b : String) (hb : b ≠ "") :
    pyOr a b ≠ "" := by
  cases a with
  | none => simp [pyOr, hb]
  | some s =>
    by_cases hs : s = ""
    · simp [pyOr, hs, hb]
    · simp [pyOr, hs]

/-- C5 (counterexample): the query rewrite transform is not idempotent as
claimed: on `" bf.model bf.model "` the first pass consumes the shared
delimiter space of the two overlapping occurrences and leaves a fresh
occurrence of `" bf.model "`, which a second pass also rewrites. -/
theorem C5_rewrite_not_idem :
    rewriteStr (rewriteStr " bf.model bf.model ") ≠ rewriteStr " bf.model bf.model " := by
  decide

/-- C5 (amended): the rewrite transform is idempotent on every query whose
rewritten form contains no further occurrence of any of the three
substitution patterns — in particular whenever pattern occurrences do not
share delimiter characters. -/
theorem C5_rewrite_idem (q : String)
    (h1 : occursIn " bf.model ".toList (rewriteStr q).toList = false)
    (h2 : occursIn " bf.model,".toList (rewriteStr q).toList = false)
    (h3 : occursIn ".model =".toList (rewriteStr q).toList = false) :
    rewriteStr (rewriteStr q) = rewriteStr q := by
  show (replaceAll ".model =".toList ".model_name =".toList
      (replaceAll " bf.model,".toList " bf.model_name,".toList
        (replaceAll " bf.model ".toList " bf.model_name ".toList
          (rewriteStr q).toList))).asString = rewriteStr q
  rw [replaceAll_of_not_occurs _ _ _ h1, replaceAll_of_not_occurs _ _ _ h2,
    replaceAll_of_not_occurs _ _ _ h3]
  rfl

/-- Witness for C5: a concrete query satisfying the no-reoccurrence
hypotheses, on which the rewrite is indeed idempotent. -/
theorem C5_rewrite_idem_w :
    occursIn " bf.model ".toList (rewriteStr "SELECT x FROM boiler_fault_codes bf WHERE bf.model = 1").toList = false
    ∧ rewriteStr (rewriteStr "SELECT x FROM boiler_fault_codes bf WHERE bf.model = 1")
      = rewriteStr "SELECT x FROM boiler_fault_codes bf WHERE bf.model = 1" :=
  ⟨by decide, C5_rewrite_idem _ (by decide) (by decide) (by decide)⟩

/-- C3 (counterexample): normalization does not always produce a list of
strings: the column value `"[1, 2]"` parses as a list literal and passes
through as a list of integers. -/
theorem C3_not_all_strings :
    normalizeSolutions (PyVal.vstr "[1, 2]") = [PyVal.vint 1, PyVal.vint 2]
    ∧ allStr (normalizeSolutions (PyVal.vstr "[1, 2]")) = false :=
  ⟨rfl, rfl⟩

/-- C3 (amended): normalization always yields an ordered list, following the
claimed case rules — a native list passes through unchanged; a string whose
literal parse yields a list becomes that list; a string parsing to a
non-list, or failing to parse, becomes the one-element list holding the
original string — and every element is a string provided the input was not
itself a non-string list or a literal denoting one (`goodVal`). -/
theorem C3_solutions_normalized :
    (∀ l, normalizeSolutions (PyVal.vlist l) = l)
    ∧ (∀ s l, litEval s.toList = some (PyVal.vlist l) →
        normalizeSolutions (PyVal.vstr s) = l)
    ∧ (∀ s w, litEval s.toList = some w → (∀ l, w ≠ PyVal.vlist l) →
        normalizeSolutions (PyVal.vstr s) = [PyVal.vstr s])
    ∧ (∀ s, litEval s.toList = none →
        normalizeSolutions (PyVal.vstr s) = [PyVal.vstr s])
    ∧ (∀ v, goodVal v = true → allStr (normalizeSolutions v) = true) := by
  have hconv : ∀ s : String, s.toList = s.data := fun _ => rfl
  refine ⟨fun l => rfl, ?_, ?_, ?_, ?_⟩
  · intro s l hl
    rw [hconv] at hl
    simp [normalizeSolutions, hl]
  · intro s w hw hnl
    rw [hconv] at hw
    cases w with
    | vlist l => exact absurd rfl (hnl l)
    | vstr s2 => simp [normalizeSolutions, hw]
    | vint n => simp [normalizeSolutions, hw]
    | vnone => simp [normalizeSolutions, hw]
  · intro s hn
    rw [hconv] at hn
    simp [normalizeSolutions, hn]
  · intro v hv
    cases v with
    | vlist l => simpa [goodVal, normalizeSolutions] using hv
    | vstr s =>
      cases hlit : litEval s.data with
      | none => simp [normalizeSolutions, hlit, allStr]
      | some w =>
        cases w with
        | vlist l =>
          simp only [goodVal, String.toList, hlit] at hv
          simpa [normalizeSolutions, hlit] using hv
        | vstr s2 => simp [normalizeSolutions, hlit, allStr]
        | vint n => simp [normalizeSolutions, hlit, allStr]
        | vnone => simp [normalizeSolutions, hlit, allStr]
    | vint n => simp [normalizeSolutions, allStr]
    | vnone => simp [normalizeSolutions, allStr]

/-- Witness for C3: the specification's two concrete examples, normalized by
the amended theorem: the quoted two-element list literal and the malformed
string `"not-a-list("`. -/
theorem C3_solutions_normalized_w :
    litEval ("[" ++ sqs ++ "check pump" ++ sqs ++ "," ++ sqs ++ "check pressure" ++ sqs ++ "]").toList
      = some (PyVal.vlist [PyVal.vstr "check pump", PyVal.vstr "check pressure"])
    ∧ normalizeSolutions
        (PyVal.vstr ("[" ++ sqs ++ "check pump" ++ sqs ++ "," ++ sqs ++ "check pressure" ++ sqs ++ "]"))
      = [PyVal.vstr "check pump", PyVal.vstr "check pressure"]
    ∧ litEval "not-a-list(".toList = none
    ∧ normalizeSolutions (PyVal.vstr "not-a-list(") = [PyVal.vstr "not-a-list("] :=
  ⟨rfl, C3_solutions_normalized.2.1 _ _ rfl, rfl,
    C3_solutions_normalized.2.2.2.1 _ rfl⟩

/-- Dropping whitespace skips a leading all-whitespace block. -/
theorem dropWhile_ws_append (w l : List Char) (hw : w.all isWS = true) :
    (w ++ l).dropWhile isWS = l.dropWhile isWS := by
  induction w with
  | nil => rfl
  | cons c cs ih =>
    rw [List.all_cons, Bool.and_eq_true] at hw
    rw [List.cons_append, List.dropWhile_cons, if_pos hw.1]
    exact ih hw.2

/-- Dropping whitespace stops at a non-whitespace head. -/
theorem dropWhile_ws_cons (c : Char) (l : List Char) (hc : isWS c = false) :
    (c :: l).dropWhile isWS = c :: l := by
  rw [List.dropWhile_cons, if_neg (by simp [hc])]

/-- `all` is invariant under reversal. -/
theorem all_reverse (p : Char → Bool) (l : List Char) : l.reverse.all p = l.all p := by
  simp [List.all_eq_true]

/-- `pyStrip` removes exactly the surrounding whitespace when the kernel
starts and ends with non-whitespace characters. -/
theorem pyStrip_sandwich (w1 w2 s : List Char)
    (hw1 : w1.all isWS = true) (hw2 : w2.all isWS = true)
    (hhead : ∃ a t, s = a :: t ∧ isWS a = false)
    (hlast : ∃ a t, s = t ++ [a] ∧ isWS a = false) :
    pyStrip (w1 ++ s ++ w2) = s := by
  obtain ⟨a, t, hs1, ha⟩ := hhead
  obtain ⟨b, t2, hs2, hb⟩ := hlast
  unfold pyStrip
  have e1 : (w1 ++ s ++ w2).dropWhile isWS = s ++ w2 := by
    rw [List.append_assoc, dropWhile_ws_append _ _ hw1, hs1, List.cons_append,
      dropWhile_ws_cons _ _ ha, ← List.cons_append, ← hs1]
  rw [e1]
  have e2 : (s ++ w2).reverse = w2.reverse ++ (b :: t2.reverse) := by
    rw [List.reverse_append, hs2, List.reverse_append]
    simp
  rw [e2]
  have e3 : (w2.reverse ++ (b :: t2.reverse)).dropWhile isWS = b :: t2.reverse := by
    rw [dropWhile_ws_append _ _ (by rw [all_reverse]; exact hw2),
      dropWhile_ws_cons _ _ hb]
  rw [e3, hs2]
  simp

/-- `pyStrip` is the identity on lists with non-whitespace ends. -/
theorem pyStrip_eq_self (s : List Char)
    (hhead : ∃ a t, s = a :: t ∧ isWS a = false)
    (hlast : ∃ a t, s = t ++ [a] ∧ isWS a = false) :
    pyStrip s = s := by
  have := pyStrip_sandwich [] [] s rfl rfl hhead hlast
  simpa using this

/-- A list is a `isPre`-prefix of itself followed by anything. -/
theorem isPre_append_self (p t : List Char) : isPre p (p ++ t) = true := by
  induction p with
  | nil => rfl
  | cons a as ih => simp [isPre, ih]

/-- Differing heads refute `isPre`. -/
theorem isPre_cons_ne (a b : Char) (as bs : List Char) (h : a ≠ b) :
    isPre (a :: as) (b :: bs) = false := by
  simp [isPre, h]

/-- The whitespace characters, enumerated. -/
theorem ws_chars (c : Char) (h : isWS c = true) :
    c = ' ' ∨ c = '\t' ∨ c = '\n' ∨ c = '\r' ∨ c = Char.ofNat 11 ∨ c = Char.ofNat 12 := by
  have h2 := h
  simp only [isWS, Bool.or_eq_true, decide_eq_true_eq] at h2
  tauto

/-- Whitespace is never a backtick. -/
theorem ws_ne_btk (c : Char) (h : isWS c = true) : btk ≠ c := by
  rcases ws_chars c h with rfl | rfl | rfl | rfl | rfl | rfl <;> decide

/-- Whitespace is never the letter `j`. -/
theorem ws_ne_j (c : Char) (h : isWS c = true) : 'j' ≠ c := by
  rcases ws_chars c h with rfl | rfl | rfl | rfl | rfl | rfl <;> decide

/-- A list beginning with whitespace or an opening brace does not start with
the bare fence marker. -/
theorem isPre_fencePat_false (u : List Char) (rest : List Char)
    (hu : u.all isWS = true) :
    isPre fencePat (u ++ (lbrace :: rest)) = false := by
  cases u with
  | nil => exact isPre_cons_ne _ _ _ _ (by decide)
  | cons c cs =>
    rw [List.all_cons, Bool.and_eq_true] at hu
    exact isPre_cons_ne _ _ _ _ (ws_ne_btk c hu.1)

/-- Checking the tagged fence marker after three backticks reduces to
checking the tag. -/
theorem isPre_fenceJson_unfold (l : List Char) :
    isPre fenceJsonPat (fencePat ++ l) = isPre ['j', 's', 'o', 'n'] l := by
  simp [fenceJsonPat, fencePat, isPre]

/-- A list beginning with whitespace or an opening brace does not start with
the fence tag `json`. -/
theorem isPre_json_false (u : List Char) (rest : List Char)
    (hu : u.all isWS = true) :
    isPre ['j', 's', 'o', 'n'] (u ++ (lbrace :: rest)) = false := by
  cases u with
  | nil => exact isPre_cons_ne _ _ _ _ (by decide)
  | cons c cs =>
    rw [List.all_cons, Bool.and_eq_true] at hu
    exact isPre_cons_ne _ _ _ _ (ws_ne_j c hu.1)

/-- A serialized JSON object does not start with the tagged fence marker. -/
theorem isPre_fenceJson_lb (t : List Char) : isPre fenceJsonPat (lbrace :: t) = false := by
  rw [show fenceJsonPat = btk :: [btk, btk, 'j', 's', 'o', 'n'] from rfl]
  exact isPre_cons_ne _ _ _ _ (by decide)

/-- A serialized JSON object does not end with the fence marker. -/
theorem isSuf_fencePat_obj (mid : List Char) :
    isSuf fencePat (lbrace :: (mid ++ [rbrace])) = false := by
  unfold isSuf
  have h1 : (lbrace :: (mid ++ [rbrace])).reverse = rbrace :: (mid.reverse ++ [lbrace]) := by
    simp
  rw [h1, show fencePat.reverse = btk :: [btk, btk] from rfl]
  exact isPre_cons_ne _ _ _ _ (by decide)

/-- Removing the leading bare fence is a no-op on text starting with
whitespace or an opening brace. -/
theorem stripLeadFence_noop (u1 rest : List Char) (hu1 : u1.all isWS = true) :
    stripLeadFence (u1 ++ (lbrace :: rest)) = u1 ++ (lbrace :: rest) := by
  unfold stripLeadFence
  rw [if_neg (by simp [isPre_fencePat_false u1 rest hu1])]

/-- Stripping the trailing fence and then the whitespace of
`u1 ++ object ++ u2 ++ fence` recovers the object. -/
theorem strip_tail_core (mid u1 u2 : List Char)
    (hu1 : u1.all isWS = true) (hu2 : u2.all isWS = true) :
    pyStrip (stripTrailFence (u1 ++ ((lbrace :: (mid ++ [rbrace])) ++ (u2 ++ fencePat))))
      = lbrace :: (mid ++ [rbrace]) := by
  have hshape : u1 ++ ((lbrace :: (mid ++ [rbrace])) ++ (u2 ++ fencePat))
      = (u1 ++ (lbrace :: (mid ++ [rbrace])) ++ u2) ++ fencePat := by
    simp [List.append_assoc]
  unfold stripTrailFence
  rw [hshape]
  have hsuf : isSuf fencePat ((u1 ++ (lbrace :: (mid ++ [rbrace])) ++ u2) ++ fencePat) = true := by
    unfold isSuf
    rw [List.reverse_append, isPre_append_self]
  rw [if_pos hsuf]
  have hlen : ((u1 ++ (lbrace :: (mid ++ [rbrace])) ++ u2) ++ fencePat).length - 3
      = (u1 ++ (lbrace :: (mid ++ [rbrace])) ++ u2).length := by
    simp [fencePat]
    omega
  rw [hlen, List.take_left]
  exact pyStrip_sandwich u1 u2 _ hu1 hu2 ⟨lbrace, _, rfl, by decide⟩
    ⟨rbrace, lbrace :: mid, by simp, by decide⟩

/-- Fence stripping on an unfenced JSON-object serialization with
surrounding whitespace recovers the serialization. -/
theorem stripFences_plain (mid w1 w2 : List Char)
    (hw1 : w1.all isWS = true) (hw2 : w2.all isWS = true) :
    stripFences (w1 ++ (lbrace :: (mid ++ [rbrace])) ++ w2) = lbrace :: (mid ++ [rbrace]) := by
  unfold stripFences
  rw [pyStrip_sandwich w1 w2 _ hw1 hw2 ⟨lbrace, _, rfl, by decide⟩
    ⟨rbrace, lbrace :: mid, by simp, by decide⟩]
  rw [show stripLeadJson (lbrace :: (mid ++ [rbrace])) = lbrace :: (mid ++ [rbrace]) from by
    unfold stripLeadJson; rw [if_neg (by simp [isPre_fenceJson_lb])]]
  rw [show stripLeadFence (lbrace :: (mid ++ [rbrace])) = lbrace :: (mid ++ [rbrace]) from by
    have := stripLeadFence_noop [] (mid ++ [rbrace]) rfl
    simpa using this]
  rw [show stripTrailFence (lbrace :: (mid ++ [rbrace])) = lbrace :: (mid ++ [rbrace]) from by
    unfold stripTrailFence; rw [if_neg (by simp [isSuf_fencePat_obj])]]
  exact pyStrip_eq_self _ ⟨lbrace, _, rfl, by decide⟩ ⟨rbrace, lbrace :: mid, by simp, by decide⟩

/-- Fence stripping on a ` ```json `-tagged fenced serialization with inner
and outer whitespace recovers the serialization. -/
theorem stripFences_json (mid w1 w2 u1 u2 : List Char)
    (hw1 : w1.all isWS = true) (hw2 : w2.all isWS = true)
    (hu1 : u1.all isWS = true) (hu2 : u2.all isWS = true) :
    stripFences
      (w1 ++ (fenceJsonPat ++ u1 ++ (lbrace :: (mid ++ [rbrace])) ++ u2 ++ fencePat) ++ w2)
      = lbrace :: (mid ++ [rbrace]) := by
  have hcl : fenceJsonPat ++ u1 ++ (lbrace :: (mid ++ [rbrace])) ++ u2 ++ fencePat
      = fenceJsonPat ++ (u1 ++ ((lbrace :: (mid ++ [rbrace])) ++ (u2 ++ fencePat))) := by
    simp [List.append_assoc]
  unfold stripFences
  rw [hcl]
  rw [pyStrip_sandwich w1 w2
    (fenceJsonPat ++ (u1 ++ ((lbrace :: (mid ++ [rbrace])) ++ (u2 ++ fencePat)))) hw1 hw2
    ⟨btk, _, rfl, by decide⟩
    ⟨btk, fenceJsonPat ++ (u1 ++ ((lbrace :: (mid ++ [rbrace])) ++ (u2 ++ [btk, btk]))), by
      simp [fencePat, fenceJsonPat, List.append_assoc], by decide⟩]
  rw [show stripLeadJson (fenceJsonPat ++ (u1 ++ ((lbrace :: (mid ++ [rbrace])) ++ (u2 ++ fencePat))))
      = u1 ++ ((lbrace :: (mid ++ [rbrace])) ++ (u2 ++ fencePat)) from by
    unfold stripLeadJson
    rw [if_pos (isPre_append_self _ _), show (7 : Nat) = fenceJsonPat.length from rfl,
      List.drop_left]]
  rw [show stripLeadFence (u1 ++ ((lbrace :: (mid ++ [rbrace])) ++ (u2 ++ fencePat)))
      = u1 ++ ((lbrace :: (mid ++ [rbrace])) ++ (u2 ++ fencePat)) from by
    have := stripLeadFence_noop u1 ((mid ++ [rbrace]) ++ (u2 ++ fencePat)) hu1
    simpa [List.append_assoc] using this]
  exact strip_tail_core mid u1 u2 hu1 hu2

/-- Fence stripping on a bare-fenced serialization with inner and outer
whitespace recovers the serialization. -/
theorem stripFences_bare (mid w1 w2 u1 u2 : List Char)
    (hw1 : w1.all isWS = true) (hw2 : w2.all isWS = true)
    (hu1 : u1.all isWS = true) (hu2 : u2.all isWS = true) :
    stripFences
      (w1 ++ (fencePat ++ u1 ++ (lbrace :: (mid ++ [rbrace])) ++ u2 ++ fencePat) ++ w2)
      = lbrace :: (mid ++ [rbrace]) := by
  have hcl : fencePat ++ u1 ++ (lbrace :: (mid ++ [rbrace])) ++ u2 ++ fencePat
      = fencePat ++ (u1 ++ ((lbrace :: (mid ++ [rbrace])) ++ (u2 ++ fencePat))) := by
    simp [List.append_assoc]
  unfold stripFences
  rw [hcl]
  rw [pyStrip_sandwich w1 w2
    (fencePat ++ (u1 ++ ((lbrace :: (mid ++ [rbrace])) ++ (u2 ++ fencePat)))) hw1 hw2
    ⟨btk, _, rfl, by decide⟩
    ⟨btk, fencePat ++ (u1 ++ ((lbrace :: (mid ++ [rbrace])) ++ (u2 ++ [btk, btk]))), by
      simp [fencePat, List.append_assoc], by decide⟩]
  rw [show stripLeadJson (fencePat ++ (u1 ++ ((lbrace :: (mid ++ [rbrace])) ++ (u2 ++ fencePat))))
      = fencePat ++ (u1 ++ ((lbrace :: (mid ++ [rbrace])) ++ (u2 ++ fencePat))) from by
    unfold stripLeadJson
    rw [if_neg (by
      rw [isPre_fenceJson_unfold]
      simp [isPre_json_false u1 _ hu1])]]
  rw [show stripLeadFence (fencePat ++ (u1 ++ ((lbrace :: (mid ++ [rbrace])) ++ (u2 ++ fencePat))))
      = u1 ++ ((lbrace :: (mid ++ [rbrace])) ++ (u2 ++ fencePat)) from by
    unfold stripLeadFence
    rw [if_pos (isPre_append_self _ _), show (3 : Nat) = fencePat.length from rfl,
      List.drop_left]]
  exact strip_tail_core mid u1 u2 hu1 hu2

/-- C4: for every JSON-object serialization (any `\x7b...\x7d` text) and each
of the three wrappings — no fence, a ` ```json `-tagged fence with closing
fence, or a bare triple-backtick fence with closing fence, each with
arbitrary surrounding (and inner) whitespace — the decision parser decodes
the identical serialization, hence recovers identical decoded objects and
identical extracted fields (action, response, context_update, sql_query,
manual_link, regulation_ref). -/
theorem C4_fence_invariance (decode : List Char → Option LlmJson)
    (mid w1 w2 u1 u2 : List Char)
    (hw1 : w1.all isWS = true) (hw2 : w2.all isWS = true)
    (hu1 : u1.all isWS = true) (hu2 : u2.all isWS = true) :
    parseDecision decode (w1 ++ (lbrace :: (mid ++ [rbrace])) ++ w2)
      = decode (lbrace :: (mid ++ [rbrace]))
    ∧ parseDecision decode
        (w1 ++ (fenceJsonPat ++ u1 ++ (lbrace :: (mid ++ [rbrace])) ++ u2 ++ fencePat) ++ w2)
      = decode (lbrace :: (mid ++ [rbrace]))
    ∧ parseDecision decode
        (w1 ++ (fencePat ++ u1 ++ (lbrace :: (mid ++ [rbrace])) ++ u2 ++ fencePat) ++ w2)
      = decode (lbrace :: (mid ++ [rbrace])) := by
  unfold parseDecision
  rw [stripFences_plain mid w1 w2 hw1 hw2, stripFences_json mid w1 w2 u1 u2 hw1 hw2 hu1 hu2,
    stripFences_bare mid w1 w2 u1 u2 hw1 hw2 hu1 hu2]
  exact ⟨rfl, rfl, rfl⟩

/-- Witness for C4: the serialization `\x7b\x7d` wrapped in a tagged fence
with newlines and a leading space parses exactly as the bare serialization,
under a decoder that reflects its input. -/
theorem C4_fence_invariance_w :
    ([' '] : List Char).all isWS = true
    ∧ parseDecision (fun l => some ⟨some (String.mk l), none, none, none, none, none⟩)
        ([' '] ++ (fenceJsonPat ++ ['\n'] ++ (lbrace :: ([] ++ [rbrace])) ++ ['\n'] ++ fencePat) ++ [])
      = some ⟨some (String.mk (lbrace :: ([] ++ [rbrace]))), none, none, none, none, none⟩ :=
  ⟨by decide,
    (C4_fence_invariance (fun l => some ⟨some (String.mk l), none, none, none, none, none⟩)
      [] [' '] [] ['\n'] ['\n'] (by decide) rfl (by decide) (by decide)).2.1⟩

/-- The handler factors through the store-independent `outcomeOf`: the store
enters only in how the outcome is attached — untouched on rollback, the
ensured insert on the decode-error early return, insert plus history update
on success. -/
theorem text_to_sql_eq (decode : List Char → Option LlmJson)
    (dbExec : String → Except Unit (List Row)) (llm : Except Unit String)
    (st : Store) (sid q : String) :
    text_to_sql decode dbExec llm st sid q =
      match outcomeOf decode dbExec llm sid q with
      | Outcome.bad => HResult.badRequest
      | Outcome.err => HResult.exn st
      | Outcome.decErr raw => HResult.decodeErr raw (ensure st sid)
      | Outcome.good fr sq ml rr a =>
          HResult.ok ⟨fr, sq, sid, ml, rr, a⟩
            ((ensure st sid).upd sid
              (histAt st sid ++ [⟨Role.user, some q⟩, ⟨Role.assistant, fr⟩])) := by
  unfold text_to_sql outcomeOf
  by_cases h1 : sid = ""
  · simp only [if_pos h1]
  by_cases h2 : q = ""
  · simp only [if_neg h1, if_pos h2]
  simp only [if_neg h1, if_neg h2]
  cases llm with
  | error e => rfl
  | ok out =>
    cases hdec : parseDecision decode out.toList with
    | none => simp only [hdec]; rfl
    | some j =>
      simp only [hdec]
      cases hact : act dbExec j.action j.response (sqlOfJson j)
          (j.manual_link.getD "") (j.regulation_ref.getD "") with
      | error e => rfl
      | ok pr =>
        obtain ⟨fr, sq⟩ := pr
        show HResult.ok _ _ = HResult.ok _ _
        rw [List.append_assoc]
        rfl

/-- The `sql_query` response field computed by `act`: the sentinel `"N/A"`
for non-query actions, and the passed (rewritten) `sql_query` value for the
query action — even when that value is empty or absent. -/
theorem act_sqlFor (dbExec : String → Except Unit (List Row))
    (a rt sq : Option String) (ml rr : String) (fr s2 : Option String)
    (h : act dbExec a rt sq ml rr = Except.ok (fr, s2)) :
    (a = some "query" → s2 = sq) ∧ (a ≠ some "query" → s2 = some "N/A") := by
  by_cases ha : a = some "query"
  · subst ha
    refine ⟨fun _ => ?_, fun hn => absurd rfl hn⟩
    cases sq with
    | none =>
      rw [show act dbExec (some "query") rt none ml rr
          = Except.ok (some noQueryMsg, none) from rfl] at h
      cases Except.ok.inj h
      rfl
    | some qq =>
      rw [show act dbExec (some "query") rt (some qq) ml rr
          = (if qq = "" then Except.ok (some noQueryMsg, some qq)
             else match dbExec qq with
               | Except.error e => Except.error e
               | Except.ok [] => Except.ok (some (pyOr rt noMatchMsg), some qq)
               | Except.ok (row :: _) =>
                 Except.ok (some (formatRow row ml rr), some qq)) from rfl] at h
      by_cases hq : qq = ""
      · rw [if_pos hq] at h
        cases Except.ok.inj h
        rfl
      · rw [if_neg hq] at h
        cases hdb : dbExec qq with
        | error e => rw [hdb] at h; cases h
        | ok rows =>
          rw [hdb] at h
          cases rows with
          | nil => cases Except.ok.inj h; rfl
          | cons r rest => cases Except.ok.inj h; rfl
  · unfold act at h
    rw [if_neg ha] at h
    refine ⟨fun hc => absurd hc ha, fun _ => ?_⟩
    by_cases hf : a = some "fallback_reasoning"
    · rw [if_pos hf] at h
      cases hm : (if ml = "" then Except.ok rt
          else pyConcat rt (manualMark ++ ml)) with
      | error e => simp only [hm] at h; cases h
      | ok fr1 =>
        simp only [hm] at h
        cases hr : (if rr = "" then Except.ok fr1
            else pyConcat fr1 (regMark ++ rr)) with
        | error e => simp only [hr] at h; cases h
        | ok fr2 =>
          simp only [hr] at h
          cases Except.ok.inj h
          rfl
    · rw [if_neg hf] at h
      by_cases hk : a = some "ask"
      · rw [if_pos hk] at h; cases Except.ok.inj h; rfl
      · rw [if_neg hk] at h; cases Except.ok.inj h; rfl

/-- C1 (counterexample): when the reasoning output fails to decode as JSON
for a previously unknown session id, the early return commits the open
transaction, so the session-creation insert persists: the store gains an
empty-history row for `"s"` although it had none before the request. -/
theorem C1_decode_failure_commits_insert :
    (text_to_sql (fun _ => none) (fun _ => Except.ok []) (Except.ok "x")
        (fun _ => none) "s" "q").rawErr = some "x"
    ∧ ((text_to_sql (fun _ => none) (fun _ => Except.ok []) (Except.ok "x")
        (fun _ => none) "s" "q").storeOut (fun _ => none)) "s" = some []
    ∧ (((fun _ => none) : Store)) "s" = none :=
  ⟨rfl, rfl, rfl⟩

/-- C1 (amended): every failure that raises an exception (reasoning-call
failure, query-execution failure, reply-construction failure) rolls the
transaction back, leaving the store exactly as before; a JSON decode
failure, however, returns early and commits: for a known session id the
store is still unchanged (the history update never ran), but for an unknown
session id the empty-history insert persists, all other sessions being
untouched. -/
theorem C1_transaction_boundary (decode : List Char → Option LlmJson)
    (dbExec : String → Except Unit (List Row)) (llm : Except Unit String)
    (st : Store) (sid q raw : String) (st1 : Store) :
    (text_to_sql decode dbExec llm st sid q = HResult.exn st1 → st1 = st)
    ∧ (text_to_sql decode dbExec llm st sid q = HResult.decodeErr raw st1 →
        ((st sid).isSome = true → st1 = st)
        ∧ (st sid = none → st1 sid = some [] ∧ ∀ s2, s2 ≠ sid → st1 s2 = st s2)) := by
  rw [text_to_sql_eq]
  cases ho : outcomeOf decode dbExec llm sid q with
  | bad => exact ⟨fun h => HResult.noConfusion h, fun h => HResult.noConfusion h⟩
  | err =>
    exact ⟨fun h => (HResult.exn.inj h).symm, fun h => HResult.noConfusion h⟩
  | decErr r =>
    refine ⟨fun h => HResult.noConfusion h, fun h => ?_⟩
    obtain ⟨h1, h2⟩ := HResult.decodeErr.inj h
    subst h2
    constructor
    · intro hs
      unfold ensure
      cases hss : st sid with
      | some v => rfl
      | none => rw [hss] at hs; cases hs
    · intro hnone
      unfold ensure
      rw [hnone]
      refine ⟨?_, fun s2 hne => ?_⟩
      · simp [Store.upd]
      · simp [Store.upd, hne]
  | good fr sq ml rr a =>
    exact ⟨fun h => HResult.noConfusion h, fun h => HResult.noConfusion h⟩

/-- Witness for C1: a failing reasoning call rolls back, leaving the empty
store unchanged. -/
theorem C1_transaction_boundary_w :
    text_to_sql (fun _ => none) (fun _ => Except.ok []) (Except.error ())
        (fun _ => none) "s" "q" = HResult.exn (fun _ => none)
    ∧ (((fun _ => none) : Store)) = (((fun _ => none) : Store)) :=
  ⟨rfl, (C1_transaction_boundary (fun _ => none) (fun _ => Except.ok [])
      (Except.error ()) (fun _ => none) "s" "q" "r" (fun _ => none)).1 rfl⟩

/-- C9: when the reasoning output is not valid JSON after fence stripping,
the request fails with the decode error, the failure payload preserves the
raw offending text, and no response (default decision or reply) is
produced. -/
theorem C9_decode_error_reported (decode : List Char → Option LlmJson)
    (dbExec : String → Except Unit (List Row)) (out : String)
    (st : Store) (sid q : String)
    (hsid : sid ≠ "") (hq : q ≠ "")
    (hdec : parseDecision decode out.toList = none) :
    text_to_sql decode dbExec (Except.ok out) st sid q
      = HResult.decodeErr out (ensure st sid)
    ∧ (text_to_sql decode dbExec (Except.ok out) st sid q).rawErr = some out
    ∧ (text_to_sql decode dbExec (Except.ok out) st sid q).respOut = none := by
  have he : outcomeOf decode dbExec (Except.ok out) sid q = Outcome.decErr out := by
    unfold outcomeOf
    rw [if_neg hsid, if_neg hq]
    simp only [hdec]
  rw [text_to_sql_eq, he]
  exact ⟨rfl, rfl, rfl⟩

/-- Witness for C9: a concrete non-JSON reasoning output on a known session
fails with the decode error carrying the raw text. -/
theorem C9_decode_error_reported_w :
    parseDecision (fun _ => none) ("x".toList) = none
    ∧ text_to_sql (fun _ => none) (fun _ => Except.ok []) (Except.ok "x")
        (fun _ => some []) "s" "q"
      = HResult.decodeErr "x" (ensure (fun _ => some []) "s") :=
  ⟨rfl, (C9_decode_error_reported (fun _ => none) (fun _ => Except.ok []) "x"
      (fun _ => some []) "s" "q" (by decide) (by decide) rfl).1⟩

/-- C2 (counterexample): a successfully handled request with
`action = "query"` but no query text returns `sql_query = null` (Python
`None`), not the sentinel `"N/A"`. -/
theorem C2_sql_sentinel_missing :
    (text_to_sql (fun _ => some ⟨some "query", some "hi", none, none, none, none⟩)
        (fun _ => Except.ok []) (Except.ok "x") (fun _ => none) "s" "q").respOut
      = some ⟨some noQueryMsg, none, "s", "", "", some "query"⟩
    ∧ (none : Option String) ≠ some "N/A" :=
  ⟨rfl, by decide⟩

/-- C2 (amended): every successful response carries the final reply text,
the session id, the extracted manual_link, regulation_ref and raw action,
and its `sql_query` field is the sentinel `"N/A"` exactly when the action is
not `query`; when the action is `query` it is the decision's (rewritten)
`sql_query` value — which is empty or null, not `"N/A"`, when the decision
carried no query text. -/
theorem C2_response_fields (decode : List Char → Option LlmJson)
    (dbExec : String → Except Unit (List Row)) (out : String)
    (st : Store) (sid q : String) (j : LlmJson) (resp : ApiResponse) (st1 : Store)
    (hdec : parseDecision decode out.toList = some j)
    (hok : text_to_sql decode dbExec (Except.ok out) st sid q = HResult.ok resp st1) :
    resp.session_id = sid
    ∧ resp.action = j.action
    ∧ resp.manual_link = j.manual_link.getD ""
    ∧ resp.regulation_ref = j.regulation_ref.getD ""
    ∧ (∀ fr sq, act dbExec j.action j.response (sqlOfJson j)
          (j.manual_link.getD "") (j.regulation_ref.getD "") = Except.ok (fr, sq) →
        resp.response = fr ∧ resp.sql_query = sq)
    ∧ (j.action ≠ some "query" → resp.sql_query = some "N/A")
    ∧ (j.action = some "query" → resp.sql_query = sqlOfJson j) := by
  rw [text_to_sql_eq] at hok
  cases ho : outcomeOf decode dbExec (Except.ok out) sid q with
  | bad => rw [ho] at hok; cases hok
  | err => rw [ho] at hok; cases hok
  | decErr r => rw [ho] at hok; cases hok
  | good fr sq ml rr a =>
    rw [ho] at hok
    obtain ⟨hresp, hst⟩ := HResult.ok.inj hok
    subst hresp
    by_cases h1 : sid = ""
    · unfold outcomeOf at ho; rw [if_pos h1] at ho; cases ho
    by_cases h2 : q = ""
    · unfold outcomeOf at ho; rw [if_neg h1, if_pos h2] at ho; cases ho
    unfold outcomeOf at ho
    rw [if_neg h1, if_neg h2] at ho
    simp only [hdec] at ho
    cases hact : act dbExec j.action j.response (sqlOfJson j)
        (j.manual_link.getD "") (j.regulation_ref.getD "") with
    | error e => simp only [hact] at ho; cases ho
    | ok pr =>
      obtain ⟨fr0, sq0⟩ := pr
      simp only [hact] at ho
      injection ho with e1 e2 e3 e4 e5
      subst e1; subst e2; subst e3; subst e4; subst e5
      refine ⟨rfl, rfl, rfl, rfl, fun fr1 sq1 h01 => ?_, fun hnq => ?_, fun hq2 => ?_⟩
      · obtain h02 := Except.ok.inj h01
        exact ⟨congrArg Prod.fst h02, congrArg Prod.snd h02⟩
      · exact (act_sqlFor dbExec _ _ _ _ _ _ _ hact).2 hnq
      · exact (act_sqlFor dbExec _ _ _ _ _ _ _ hact).1 hq2

/-- Witness for C2: a query decision with a query answered by one row yields
a response whose `sql_query` is the executed query and whose fields mirror
the decision. -/
theorem C2_response_fields_w :
    parseDecision
        (fun _ => some ⟨some "ask", some "hello", none, none, some "m", some "r"⟩)
        ("x".toList)
      = some ⟨some "ask", some "hello", none, none, some "m", some "r"⟩
    ∧ (⟨some "hello", some "N/A", "s", "m", "r", some "ask"⟩ : ApiResponse).sql_query
      = some "N/A" :=
  ⟨rfl,
    (C2_response_fields
      (fun _ => some ⟨some "ask", some "hello", none, none, some "m", some "r"⟩)
      (fun _ => Except.ok []) "x" (fun _ => none) "s" "q"
      ⟨some "ask", some "hello", none, none, some "m", some "r"⟩
      ⟨some "hello", some "N/A", "s", "m", "r", some "ask"⟩
      _ rfl (by rfl)).2.2.2.2.2.1 (by decide)⟩

/-- A `replace` pass with a non-empty replacement never empties a non-empty
list. -/
theorem replaceGo_ne_nil (p r : List Char) (hr : r ≠ []) (fuel : Nat)
    (l : List Char) (hl : l ≠ []) : replaceGo p r fuel l ≠ [] := by
  cases fuel with
  | zero => exact hl
  | succ n =>
    cases l with
    | nil => exact absurd rfl hl
    | cons c cs =>
      rw [replaceGo]
      by_cases hp : (!p.isEmpty && isPre p (c :: cs)) = true
      · rw [if_pos hp]
        intro hcontra
        exact hr (List.append_eq_nil.mp hcontra).1
      · rw [if_neg hp]
        intro hcontra
        exact List.noConfusion hcontra

/-- The alias rewrite never turns a non-empty query into the empty string. -/
theorem rewriteStr_ne_empty (s : String) (h : s ≠ "") : rewriteStr s ≠ "" := by
  have hl : s.toList ≠ [] := by
    intro he
    apply h
    have h2 : String.mk s.data = String.mk [] := congrArg String.mk he
    exact h2
  intro hcontra
  have hL : replaceAll ".model =".toList ".model_name =".toList
      (replaceAll " bf.model,".toList " bf.model_name,".toList
        (replaceAll " bf.model ".toList " bf.model_name ".toList s.toList)) = [] :=
    congrArg String.data hcontra
  have h1 : replaceAll " bf.model ".toList " bf.model_name ".toList s.toList ≠ [] :=
    replaceGo_ne_nil _ _ (by decide) _ _ hl
  have h2 : replaceAll " bf.model,".toList " bf.model_name,".toList
      (replaceAll " bf.model ".toList " bf.model_name ".toList s.toList) ≠ [] :=
    replaceGo_ne_nil _ _ (by decide) _ _ h1
  exact replaceGo_ne_nil _ _ (by decide) _ _ h2 hL

/-- A successful action dispatch yields a committed successful response with
the dispatched reply and sql field. -/
theorem good_of_act (decode : List Char → Option LlmJson)
    (dbExec : String → Except Unit (List Row)) (out : String)
    (st : Store) (sid q : String) (j : LlmJson) (fr sq : Option String)
    (hsid : sid ≠ "") (hq : q ≠ "")
    (hdec : parseDecision decode out.toList = some j)
    (hact : act dbExec j.action j.response (sqlOfJson j)
        (j.manual_link.getD "") (j.regulation_ref.getD "") = Except.ok (fr, sq)) :
    ∃ st1, text_to_sql decode dbExec (Except.ok out) st sid q
      = HResult.ok ⟨fr, sq, sid, j.manual_link.getD "", j.regulation_ref.getD "", j.action⟩ st1 := by
  have ho : outcomeOf decode dbExec (Except.ok out) sid q
      = Outcome.good fr sq (j.manual_link.getD "") (j.regulation_ref.getD "") j.action := by
    unfold outcomeOf
    rw [if_neg hsid, if_neg hq]
    simp only [hdec, hact]
  rw [text_to_sql_eq, ho]
  exact ⟨_, rfl⟩

/-- A raising action dispatch aborts the request, rolling the store back. -/
theorem exn_of_act (decode : List Char → Option LlmJson)
    (dbExec : String → Except Unit (List Row)) (out : String)
    (st : Store) (sid q : String) (j : LlmJson) (e : Unit)
    (hsid : sid ≠ "") (hq : q ≠ "")
    (hdec : parseDecision decode out.toList = some j)
    (hact : act dbExec j.action j.response (sqlOfJson j)
        (j.manual_link.getD "") (j.regulation_ref.getD "") = Except.error e) :
    text_to_sql decode dbExec (Except.ok out) st sid q = HResult.exn st := by
  have ho : outcomeOf decode dbExec (Except.ok out) sid q = Outcome.err := by
    unfold outcomeOf
    rw [if_neg hsid, if_neg hq]
    simp only [hdec, hact]
  rw [text_to_sql_eq, ho]

/-- C10: the parser applies no default to the `response` field: with
`response` absent (or null) and `action = fallback_reasoning` with a
non-empty manual_link or regulation_ref, appending the annotation to the
null reply raises, the transaction rolls back and the request surfaces as a
generic failure; with `action = ask` and `response` absent the request
succeeds with a null (not string) reply. -/
theorem C10_null_response (decode : List Char → Option LlmJson)
    (dbExec : String → Except Unit (List Row)) (out : String)
    (st : Store) (sid q : String) (j : LlmJson)
    (hsid : sid ≠ "") (hq : q ≠ "")
    (hdec : parseDecision decode out.toList = some j)
    (hresp : j.response = none) :
    (j.action = some "fallback_reasoning" →
      (j.manual_link.getD "" ≠ "" ∨ j.regulation_ref.getD "" ≠ "") →
      text_to_sql decode dbExec (Except.ok out) st sid q = HResult.exn st)
    ∧ (j.action = some "ask" →
      ∃ st1, text_to_sql decode dbExec (Except.ok out) st sid q
        = HResult.ok ⟨none, some "N/A", sid, j.manual_link.getD "",
            j.regulation_ref.getD "", j.action⟩ st1) := by
  constructor
  · intro ha hml
    refine exn_of_act decode dbExec out st sid q j () hsid hq hdec ?_
    rw [ha, hresp]
    show (if (some "fallback_reasoning" : Option String) = some "query" then _
      else if (some "fallback_reasoning" : Option String) = some "fallback_reasoning" then _
      else _) = Except.error ()
    rw [if_neg (by decide), if_pos rfl]
    by_cases hm : j.manual_link.getD "" = ""
    · rcases hml with hml1 | hml2
      · exact absurd hm hml1
      · rw [if_pos hm]
        show (match (if j.regulation_ref.getD "" = ""
            then Except.ok (none : Option String)
            else pyConcat none (regMark ++ j.regulation_ref.getD "")) with
          | Except.error e => Except.error e
          | Except.ok fr2 => Except.ok (fr2, some "N/A")) = Except.error ()
        rw [if_neg hml2]
        rfl
    · rw [if_neg hm]
      rfl
  · intro ha
    refine good_of_act decode dbExec out st sid q j none (some "N/A") hsid hq hdec ?_
    rw [ha, hresp]
    rfl

/-- Witness for C10: concrete decisions exercising both branches: a
fallback decision with null response and a manual link fails as a rolled
back exception, and an ask decision with null response succeeds with a null
reply. -/
theorem C10_null_response_w :
    text_to_sql (fun _ => some ⟨some "fallback_reasoning", none, none, none, some "m", none⟩)
        (fun _ => Except.ok []) (Except.ok "x") (fun _ => none) "s" "q"
      = HResult.exn ((fun _ => none) : Store) :=
  (C10_null_response (fun _ => some ⟨some "fallback_reasoning", none, none, none, some "m", none⟩)
    (fun _ => Except.ok []) "x" ((fun _ => none) : Store) "s" "q"
    ⟨some "fallback_reasoning", none, none, none, some "m", none⟩
    (by decide) (by decide) rfl rfl).1 rfl (Or.inl (by decide))

/-- C6: for a decision with `action = query`: a present non-empty
`sql_query` is rewritten and executed — a first row yields the formatted
reply, zero rows yield the decision's response or (when that is empty or
null) the non-empty generic no-match message, an execution error aborts with
rollback; an absent or empty `sql_query` yields the generic
unable-to-generate message and the executor is never consulted. -/
theorem C6_query_dispatch (decode : List Char → Option LlmJson)
    (dbExec : String → Except Unit (List Row)) (out : String)
    (st : Store) (sid q : String) (j : LlmJson)
    (hsid : sid ≠ "") (hq : q ≠ "")
    (hdec : parseDecision decode out.toList = some j)
    (ha : j.action = some "query") :
    (∀ s0, j.sql_query = some s0 → s0 ≠ "" →
      (∀ row rest, dbExec (rewriteStr s0) = Except.ok (row :: rest) →
        ∃ st1, text_to_sql decode dbExec (Except.ok out) st sid q
          = HResult.ok ⟨some (formatRow row (j.manual_link.getD "") (j.regulation_ref.getD "")),
              some (rewriteStr s0), sid, j.manual_link.getD "",
              j.regulation_ref.getD "", j.action⟩ st1)
      ∧ (dbExec (rewriteStr s0) = Except.ok [] →
        pyOr j.response noMatchMsg ≠ ""
        ∧ ∃ st1, text_to_sql decode dbExec (Except.ok out) st sid q
          = HResult.ok ⟨some (pyOr j.response noMatchMsg), some (rewriteStr s0), sid,
              j.manual_link.getD "", j.regulation_ref.getD "", j.action⟩ st1)
      ∧ (∀ e, dbExec (rewriteStr s0) = Except.error e →
        text_to_sql decode dbExec (Except.ok out) st sid q = HResult.exn st))
    ∧ ((j.sql_query = none ∨ j.sql_query = some "") →
      (∃ st1, text_to_sql decode dbExec (Except.ok out) st sid q
        = HResult.ok ⟨some noQueryMsg, sqlOfJson j, sid,
            j.manual_link.getD "", j.regulation_ref.getD "", j.action⟩ st1)
      ∧ ∀ dbExec2, text_to_sql decode dbExec (Except.ok out) st sid q
          = text_to_sql decode dbExec2 (Except.ok out) st sid q) := by
  constructor
  · intro s0 hs0 hs0ne
    have hsql : sqlOfJson j = some (rewriteStr s0) := by
      unfold sqlOfJson
      rw [hs0]
      show (if s0 = "" then some s0 else some (rewriteStr s0)) = some (rewriteStr s0)
      rw [if_neg hs0ne]
    have hrwne : rewriteStr s0 ≠ "" := rewriteStr_ne_empty s0 hs0ne
    refine ⟨fun row rest hdb => ?_, fun hdb => ?_, fun e hdb => ?_⟩
    · refine good_of_act decode dbExec out st sid q j _ _ hsid hq hdec ?_
      rw [ha, hsql]
      show (if rewriteStr s0 = ""
          then Except.ok (some noQueryMsg, some (rewriteStr s0))
          else match dbExec (rewriteStr s0) with
            | Except.error e => Except.error e
            | Except.ok [] =>
              Except.ok (some (pyOr j.response noMatchMsg), some (rewriteStr s0))
            | Except.ok (row :: _) =>
              Except.ok (some (formatRow row (j.manual_link.getD "") (j.regulation_ref.getD "")),
                some (rewriteStr s0))) = _
      rw [if_neg hrwne, hdb]
    · refine ⟨pyOr_ne_empty _ _ (by decide), ?_⟩
      refine good_of_act decode dbExec out st sid q j _ _ hsid hq hdec ?_
      rw [ha, hsql]
      show (if rewriteStr s0 = ""
          then Except.ok (some noQueryMsg, some (rewriteStr s0))
          else match dbExec (rewriteStr s0) with
            | Except.error e => Except.error e
            | Except.ok [] =>
              Except.ok (some (pyOr j.response noMatchMsg), some (rewriteStr s0))
            | Except.ok (row :: _) =>
              Except.ok (some (formatRow row (j.manual_link.getD "") (j.regulation_ref.getD "")),
                some (rewriteStr s0))) = _
      rw [if_neg hrwne, hdb]
    · refine exn_of_act decode dbExec out st sid q j e hsid hq hdec ?_
      rw [ha, hsql]
      show (if rewriteStr s0 = ""
          then Except.ok (some noQueryMsg, some (rewriteStr s0))
          else match dbExec (rewriteStr s0) with
            | Except.error e => Except.error e
            | Except.ok [] =>
              Except.ok (some (pyOr j.response noMatchMsg), some (rewriteStr s0))
            | Except.ok (row :: _) =>
              Except.ok (some (formatRow row (j.manual_link.getD "") (j.regulation_ref.getD "")),
                some (rewriteStr s0))) = _
      rw [if_neg hrwne, hdb]
  · intro hcase
    have hact : ∀ db2 : String → Except Unit (List Row),
        act db2 j.action j.response (sqlOfJson j)
          (j.manual_link.getD "") (j.regulation_ref.getD "")
        = Except.ok (some noQueryMsg, sqlOfJson j) := by
      intro db2
      rcases hcase with hn | he
      · have hsq : sqlOfJson j = none := by unfold sqlOfJson; rw [hn]
        rw [ha, hsq]
        rfl
      · have hsq : sqlOfJson j = some "" := by
          unfold sqlOfJson
          rw [he]
          rfl
        rw [ha, hsq]
        rfl
    constructor
    · exact good_of_act decode dbExec out st sid q j _ _ hsid hq hdec (hact dbExec)
    · intro dbExec2
      have ho : ∀ db2 : String → Except Unit (List Row),
          outcomeOf decode db2 (Except.ok out) sid q
          = Outcome.good (some noQueryMsg) (sqlOfJson j)
              (j.manual_link.getD "") (j.regulation_ref.getD "") j.action := by
        intro db2
        unfold outcomeOf
        rw [if_neg hsid, if_neg hq]
        simp only [hdec, hact db2]
      rw [text_to_sql_eq, text_to_sql_eq, ho dbExec, ho dbExec2]

/-- Witness for C6: a concrete query decision whose (fixed-point) rewritten
query returns one row succeeds with the formatted first row as the reply and
the executed query in the `sql_query` field. -/
theorem C6_query_dispatch_w :
    rewriteStr "SELECT 1" = "SELECT 1"
    ∧ ∃ st1,
      text_to_sql (fun _ => some ⟨some "query", none, none, some "SELECT 1", none, none⟩)
          (fun _ => Except.ok [⟨"Pump fault", PyVal.vlist [PyVal.vstr "Check pump"]⟩])
          (Except.ok "x") ((fun _ => none) : Store) "s" "q"
        = HResult.ok ⟨some (formatRow ⟨"Pump fault", PyVal.vlist [PyVal.vstr "Check pump"]⟩ "" ""),
            some (rewriteStr "SELECT 1"), "s", "", "", some "query"⟩ st1 :=
  ⟨by decide,
    ((C6_query_dispatch (fun _ => some ⟨some "query", none, none, some "SELECT 1", none, none⟩)
      (fun _ => Except.ok [⟨"Pump fault", PyVal.vlist [PyVal.vstr "Check pump"]⟩])
      "x" ((fun _ => none) : Store) "s" "q"
      ⟨some "query", none, none, some "SELECT 1", none, none⟩
      (by decide) (by decide) rfl rfl).1 "SELECT 1" rfl (by decide)).1
      ⟨"Pump fault", PyVal.vlist [PyVal.vstr "Check pump"]⟩ [] rfl⟩

/-- C7: the formatted reply is exactly the concatenation, in fixed order, of
the trimmed description; then (only when the normalized solutions are
non-empty) a blank line, the literal `Recommended steps:` header, and one
bulleted line per solution in original order; then (only when `manual_link`
is non-empty) a blank line and the manual annotation containing the link;
then (only when `regulation_ref` is non-empty) a blank line and the
regulation annotation containing the reference.  Absent sections contribute
nothing and present sections never reorder. -/
theorem C7_format_order (row : Row) (ml rr : String) :
    formatRow row ml rr
      = pyStripStr row.description
        ++ (if (normalizeSolutions row.solutions).isEmpty then ""
            else stepsHeader
              ++ String.intercalate "\n"
                ((normalizeSolutions row.solutions).map fun s => "- " ++ pyStr s))
        ++ (if ml = "" then "" else manualMark ++ ml)
        ++ (if rr = "" then "" else regMark ++ rr) := by
  unfold formatRow
  by_cases h1 : (normalizeSolutions row.solutions).isEmpty <;>
    by_cases h2 : ml = "" <;>
      by_cases h3 : rr = "" <;>
        simp [h1, h2, h3, String.append_assoc, String.append_empty]

/-- One served request transforms the store according to the
store-independent outcome. -/
theorem stepReq_eq (decode : List Char → Option LlmJson) (st : Store) (r : Req) :
    stepReq decode st r =
      match outcomeOf decode r.dbExec r.llm r.session_id r.question with
      | Outcome.bad => st
      | Outcome.err => st
      | Outcome.decErr _ => ensure st r.session_id
      | Outcome.good fr _ _ _ _ =>
          (ensure st r.session_id).upd r.session_id
            (histAt st r.session_id ++
              [⟨Role.user, some r.question⟩, ⟨Role.assistant, fr⟩]) := by
  unfold stepReq
  rw [text_to_sql_eq]
  cases outcomeOf decode r.dbExec r.llm r.session_id r.question <;> rfl

/-- Request success coincides with the store-independent outcome being the
successful one. -/
theorem isSuccess_eq (decode : List Char → Option LlmJson) (r : Req) :
    isSuccess decode r
      = (outcomeOf decode r.dbExec r.llm r.session_id r.question).isGood := by
  unfold isSuccess
  rw [text_to_sql_eq]
  cases outcomeOf decode r.dbExec r.llm r.session_id r.question <;> rfl

/-- The session-ensuring insert never changes any read-back history. -/
theorem histAt_ensure (st : Store) (sid x : String) :
    histAt (ensure st sid) x = histAt st x := by
  unfold ensure
  cases hs : st sid with
  | some v => rfl
  | none =>
    by_cases hx : x = sid
    · subst hx
      simp [histAt, Store.upd, hs]
    · simp [histAt, Store.upd, hx]

/-- Reading the session just written returns the written history. -/
theorem histAt_upd_same (st : Store) (sid : String) (v : List Turn) :
    histAt (st.upd sid v) sid = v := by
  simp [histAt, Store.upd]

/-- Writing one session leaves every other session's history unchanged. -/
theorem histAt_upd_other (st : Store) (sid : String) (v : List Turn) (x : String)
    (h : x ≠ sid) : histAt (st.upd sid v) x = histAt st x := by
  simp [histAt, Store.upd, h]

/-- One served request either appends exactly a user/assistant pair to its
own session's history (when it succeeds), or leaves the read-back history of
every session unchanged. -/
theorem stepReq_histAt (decode : List Char → Option LlmJson) (st : Store)
    (r : Req) (sid : String) :
    (isSuccess decode r = true ∧ r.session_id = sid ∧ ∃ a,
      histAt (stepReq decode st r) sid
        = histAt st sid ++ [⟨Role.user, some r.question⟩, ⟨Role.assistant, a⟩])
    ∨ ((isSuccess decode r = true ∧ r.session_id = sid → False)
        ∧ histAt (stepReq decode st r) sid = histAt st sid) := by
  rw [stepReq_eq, isSuccess_eq]
  cases ho : outcomeOf decode r.dbExec r.llm r.session_id r.question with
  | bad => exact Or.inr ⟨fun hc => by simp [Outcome.isGood] at hc, rfl⟩
  | err => exact Or.inr ⟨fun hc => by simp [Outcome.isGood] at hc, rfl⟩
  | decErr raw => exact Or.inr ⟨fun hc => by simp [Outcome.isGood] at hc, histAt_ensure st r.session_id sid⟩
  | good fr sq ml rr a =>
    by_cases hsid : r.session_id = sid
    · refine Or.inl ⟨rfl, hsid, fr, ?_⟩
      subst hsid
      rw [histAt_upd_same]
    · refine Or.inr ⟨fun hc => hsid hc.2, ?_⟩
      rw [histAt_upd_other _ _ _ _ (fun he => hsid he.symm), histAt_ensure]

/-- Appending a user/assistant pair preserves strict alternation. -/
theorem altUA_append_pair (x y : Option String) :
    ∀ h : List Turn, altUA h = true →
      altUA (h ++ [⟨Role.user, x⟩, ⟨Role.assistant, y⟩]) = true
  | [], _ => rfl
  | [t], hcontra => by simp [altUA] at hcontra
  | t1 :: t2 :: rest, hyp => by
    show altUA (t1 :: t2 :: (rest ++ [⟨Role.user, x⟩, ⟨Role.assistant, y⟩])) = true
    rw [altUA] at hyp ⊢
    rw [Bool.and_eq_true, Bool.and_eq_true] at hyp
    obtain ⟨⟨ha1, ha2⟩, ha3⟩ := hyp
    rw [ha1, ha2, altUA_append_pair x y rest ha3]
    rfl

/-- C8: for every session, after serving any request sequence the persisted
history is still a strict user/assistant alternation, its length has grown
by exactly two turns per successfully completed request addressed to that
session, the previous history is a prefix (no turn is reordered or deleted),
and each successful request appends exactly the captured user question
followed by the final assistant reply. -/
theorem C8_session_append (decode : List Char → Option LlmJson)
    (reqs : List Req) (st0 : Store) (sid : String)
    (h : altUA (histAt st0 sid) = true) :
    altUA (histAt (runReqs decode reqs st0) sid) = true
    ∧ (histAt (runReqs decode reqs st0) sid).length
      = (histAt st0 sid).length
        + 2 * reqs.countP (fun r => r.session_id == sid && isSuccess decode r)
    ∧ histAt st0 sid <+: histAt (runReqs decode reqs st0) sid
    ∧ (∀ r : Req, ∀ resp st1,
        text_to_sql decode r.dbExec r.llm st0 r.session_id r.question
          = HResult.ok resp st1 →
        histAt st1 r.session_id
          = histAt st0 r.session_id
            ++ [⟨Role.user, some r.question⟩, ⟨Role.assistant, resp.response⟩]) := by
  have main : ∀ st : Store, altUA (histAt st sid) = true →
      altUA (histAt (runReqs decode reqs st) sid) = true
      ∧ (histAt (runReqs decode reqs st) sid).length
        = (histAt st sid).length
          + 2 * reqs.countP (fun r => r.session_id == sid && isSuccess decode r)
      ∧ histAt st sid <+: histAt (runReqs decode reqs st) sid := by
    induction reqs with
    | nil =>
      intro st h0
      exact ⟨h0, by simp [runReqs], List.prefix_rfl⟩
    | cons r rs ih =>
      intro st h0
      have hrun : runReqs decode (r :: rs) st = runReqs decode rs (stepReq decode st r) := by
        simp [runReqs]
      rw [hrun, List.countP_cons]
      rcases stepReq_histAt decode st r sid with ⟨hsucc, hsid, a, he⟩ | ⟨hfail, he⟩
      · have h1 : altUA (histAt (stepReq decode st r) sid) = true := by
          rw [he]; exact altUA_append_pair _ _ _ h0
        obtain ⟨g1, g2, g3⟩ := ih (stepReq decode st r) h1
        have hp : (r.session_id == sid && isSuccess decode r) = true := by
          simp [hsid, hsucc]
        refine ⟨g1, ?_, ?_⟩
        · rw [g2, he]
          simp only [List.length_append, hp, if_pos]
          simp
          omega
        · refine List.IsPrefix.trans ?_ g3
          rw [he]
          exact List.prefix_append _ _
      · obtain ⟨g1, g2, g3⟩ := ih (stepReq decode st r) (by rw [he]; exact h0)
        have hp : (r.session_id == sid && isSuccess decode r) = false := by
          by_cases hs2 : r.session_id = sid
          · have hv2 : isSuccess decode r = false := by
              cases hv : isSuccess decode r with
              | true => exact absurd ⟨hv, hs2⟩ hfail
              | false => rfl
            simp [hv2]
          · simp [hs2]
        refine ⟨g1, ?_, ?_⟩
        · rw [g2, he]
          simp [hp]
        · rw [he] at g3
          exact g3
  refine ⟨(main st0 h).1, (main st0 h).2.1, (main st0 h).2.2, ?_⟩
  intro r resp st1 hok
  rw [text_to_sql_eq] at hok
  cases ho : outcomeOf decode r.dbExec r.llm r.session_id r.question with
  | bad => rw [ho] at hok; cases hok
  | err => rw [ho] at hok; cases hok
  | decErr raw => rw [ho] at hok; cases hok
  | good fr sq ml rr a =>
    rw [ho] at hok
    obtain ⟨hresp, hst⟩ := HResult.ok.inj hok
    subst hresp
    rw [← hst, histAt_upd_same]

/-- Witness for C8: two successful `ask` requests on one fresh session leave
a four-turn alternating history. -/
theorem C8_session_append_w :
    altUA (histAt ((fun _ => none) : Store) "s") = true
    ∧ (histAt
        (runReqs (fun _ => some ⟨some "ask", some "hi", none, none, none, none⟩)
          [⟨fun _ => Except.ok [], Except.ok "x", "s", "hello"⟩,
           ⟨fun _ => Except.ok [], Except.ok "x", "s", "again"⟩]
          ((fun _ => none) : Store)) "s").length
      = (histAt ((fun _ => none) : Store) "s").length
        + 2 * ([⟨fun _ => Except.ok [], Except.ok "x", "s", "hello"⟩,
                ⟨fun _ => Except.ok [], Except.ok "x", "s", "again"⟩] : List Req).countP
            (fun r => r.session_id == "s"
              && isSuccess (fun _ => some ⟨some "ask", some "hi", none, none, none, none⟩) r) :=
  ⟨rfl,
    (C8_session_append (fun _ => some ⟨some "ask", some "hi", none, none, none, none⟩)
      [⟨fun _ => Except.ok [], Except.ok "x", "s", "hello"⟩,
       ⟨fun _ => Except.ok [], Except.ok "x", "s", "again"⟩]
      ((fun _ => none) : Store) "s" rfl).2.1⟩

end BB
